import Mathlib

/-!
# Verification of the AIStore cluster-membership / keepalive control core

Shallow embedding of the `ais` package control-plane code:
keepalive timeout statistics (RFC-6298-style adaptive timeouts), the
keepalive register/retry loop, the cluster-map (`Smap`) rebalance trigger
`mustRunRebalance`, join/keepalive admission (`httpclupost`,
`handleJoinKalive`, `addOrUpdateNode`), the administrative set-primary
flow (`cluSetPrimary`), the notification-listener aggregation, and the
`AvgTracker` keepalive tracker.

Go `int64` arithmetic is modelled by `Int` (overflow is immaterial for
the properties below); Go's truncating integer division is `Int.tdiv`.
Go maps keyed by daemon id are modelled by association lists with
first-match lookup.
-/

set_option autoImplicit false

namespace AIStore

/-! ## Association-list maps (Go `map[string]T`) -/

/-- First-match lookup in an association list (Go map read). -/
def mfind {α : Type} : List (String × α) → String → Option α
  | [], _ => none
  | (k, v) :: rest, sid => if k = sid then some v else mfind rest sid

/-- Insert-or-replace in an association list (Go map write). -/
def mset {α : Type} : List (String × α) → String → α → List (String × α)
  | [], sid, v => [(sid, v)]
  | (k, w) :: rest, sid, v =>
      if k = sid then (sid, v) :: rest else (k, w) :: mset rest sid v

theorem mfind_mset {α : Type} (m : List (String × α)) (sid sid' : String) (v : α) :
    mfind (mset m sid v) sid' = if sid = sid' then some v else mfind m sid' := by
  induction m with
  | nil =>
      by_cases h : sid = sid' <;> simp [mset, mfind, h]
  | cons p rest ih =>
      obtain ⟨k, w⟩ := p
      by_cases hk : k = sid
      · subst hk
        by_cases h : k = sid' <;> simp [mset, mfind, h]
      · by_cases h : k = sid'
        · subst h
          have : ¬ sid = k := fun hc => hk hc.symm
          simp [mset, hk, mfind, this]
        · simp [mset, hk, mfind, h, ih]

/-! ## Go integer helpers (`cmn/cos`)

Modelled from the spec: the `cos` arithmetic helpers are referenced by the
keepalive code but their file is not part of the extract; the spec
describes them as absolute value, min, max, and "divide ... with
rounding" on integer nanoseconds. -/

/-- `cos.AbsI64`. -/
def absI64 (x : Int) : Int := if x < 0 then -x else x

/-- `cos.MinI64`. -/
def minI64 (a b : Int) : Int := if a < b then a else b

/-- `cos.MaxI64`. -/
def maxI64 (a b : Int) : Int := if a > b then a else b

/-- `cos.DivRound`: integer division with rounding (Go `(a + b/2) / b`,
truncating division). -/
def divRound (a b : Int) : Int := Int.tdiv (a + Int.tdiv b 2) b

/-! ## Per-peer timeout statistics (`keepalive` in the `ais` package) -/

/-- `timeoutStats`: smoothed RTT, RTT variation and current timeout,
all in integer nanoseconds. -/
structure TimeoutStats where
  srtt : Int
  rttvar : Int
  timeout : Int
deriving DecidableEq, Repr

/-- The parts of the `keepalive` struct that the timeout logic uses:
the cached `maxKeepalive` config value and the `timeoutTracker` map. -/
structure Keepalive where
  maxKeepalive : Int
  timeoutStats : List (String × TimeoutStats)
deriving DecidableEq, Repr

/-- A fresh keepalive state (empty `timeoutStats` map). -/
def initKeepalive (maxKeepalive : Int) : Keepalive :=
  { maxKeepalive := maxKeepalive, timeoutStats := [] }

/-- Default entry materialized by `timeoutStatsForDaemon` for an unknown
daemon: `srtt = maxKeepalive`, `rttvar = maxKeepalive/2`,
`timeout = maxKeepalive`. -/
def defaultTimeoutStats (maxKeepalive : Int) : TimeoutStats :=
  { srtt := maxKeepalive
    rttvar := Int.tdiv maxKeepalive 2
    timeout := maxKeepalive }

/-- `keepalive.timeoutStatsForDaemon`: return the entry for `sid`,
inserting the default entry first if there is none. -/
def timeoutStatsForDaemon (k : Keepalive) (sid : String) : TimeoutStats × Keepalive :=
  match mfind k.timeoutStats sid with
  | some ts => (ts, k)
  | none =>
      let ts := defaultTimeoutStats k.maxKeepalive
      (ts, { k with timeoutStats := mset k.timeoutStats sid ts })

/-- `keepalive.updateTimeoutForDaemon` with `alpha = 125`, `beta = 250`,
`c = 4`: RFC-6298-style update of `(srtt, rttvar, timeout)` for daemon
`sid` on an observed round-trip `d`; returns the new timeout and the
updated state. -/
def updateTimeoutForDaemon (k : Keepalive) (sid : String) (d : Int) : Int × Keepalive :=
  let alpha : Int := 125
  let beta : Int := 250
  let c : Int := 4
  let next := d
  let (ts, k1) := timeoutStatsForDaemon k sid
  let rttvar1 := (1000 - beta) * ts.rttvar + beta * absI64 (ts.srtt - next)
  let rttvar2 := divRound rttvar1 1000
  let srtt1 := (1000 - alpha) * ts.srtt + alpha * next
  let srtt2 := divRound srtt1 1000
  let timeout1 := minI64 k1.maxKeepalive (srtt2 + c * rttvar2)
  let timeout2 := maxI64 timeout1 (Int.tdiv k1.maxKeepalive 2)
  let ts' : TimeoutStats := { srtt := srtt2, rttvar := rttvar2, timeout := timeout2 }
  (timeout2, { k1 with timeoutStats := mset k1.timeoutStats sid ts' })

/-- Apply a sequence of `(sid, duration)` observations with
`updateTimeoutForDaemon`. -/
def applyUpdates (k : Keepalive) : List (String × Int) → Keepalive
  | [] => k
  | (sid, d) :: rest => applyUpdates (updateTimeoutForDaemon k sid d).2 rest

/-! ### Specification-side RFC-6298 recursion (for claim C2) -/

/-- Clamp `x` into `[lo, hi]` (the spec's `clamp(x, lo, hi)`). -/
def clamp (x lo hi : Int) : Int := if x < lo then lo else if x > hi then hi else x

/-- The per-observation recursion exactly as the spec states it:
`rttvar ← round((750·rttvar + 250·|srtt_old − δ|)/1000)` (using the
pre-update `srtt`), then `srtt ← round((875·srtt_old + 125·δ)/1000)`,
then `timeout ← clamp(srtt + 4·rttvar, maxKeepalive/2, maxKeepalive)`. -/
def specTimeoutUpdate (maxKeepalive : Int) (old : TimeoutStats) (delta : Int) : TimeoutStats :=
  let rttvar' := divRound ((1000 - 250) * old.rttvar + 250 * absI64 (old.srtt - delta)) 1000
  let srtt' := divRound ((1000 - 125) * old.srtt + 125 * delta) 1000
  { srtt := srtt'
    rttvar := rttvar'
    timeout := clamp (srtt' + 4 * rttvar') (Int.tdiv maxKeepalive 2) maxKeepalive }

/-- The entry `updateTimeoutForDaemon` starts from: the stored stats for
`sid`, or the materialized default. -/
def oldStatsFor (k : Keepalive) (sid : String) : TimeoutStats :=
  (mfind k.timeoutStats sid).getD (defaultTimeoutStats k.maxKeepalive)

theorem clamp_eq_max_min (x lo hi : Int) (h : lo ≤ hi) :
    clamp x lo hi = maxI64 (minI64 hi x) lo := by
  unfold clamp maxI64 minI64
  split_ifs <;> omega

theorem tdiv_two_le_self {mk : Int} (h : 0 ≤ mk) : Int.tdiv mk 2 ≤ mk := by
  rw [Int.tdiv_eq_ediv h (by omega)]
  omega

theorem mset_mset {α : Type} (m : List (String × α)) (sid : String) (v w : α) :
    mset (mset m sid v) sid w = mset m sid w := by
  induction m with
  | nil => simp [mset]
  | cons p rest ih =>
      obtain ⟨k, x⟩ := p
      by_cases hk : k = sid
      · simp [mset, hk]
      · simp [mset, hk, ih]

/-- The code-side core of one `updateTimeoutForDaemon` step, as a pure
function of the pre-update stats. -/
def codeCore (mk : Int) (old : TimeoutStats) (d : Int) : TimeoutStats :=
  let rttvar2 := divRound ((1000 - 250) * old.rttvar + 250 * absI64 (old.srtt - d)) 1000
  let srtt2 := divRound ((1000 - 125) * old.srtt + 125 * d) 1000
  { srtt := srtt2
    rttvar := rttvar2
    timeout := maxI64 (minI64 mk (srtt2 + 4 * rttvar2)) (Int.tdiv mk 2) }

theorem updateTimeoutForDaemon_maxKeepalive (k : Keepalive) (sid : String) (d : Int) :
    (updateTimeoutForDaemon k sid d).2.maxKeepalive = k.maxKeepalive := by
  unfold updateTimeoutForDaemon timeoutStatsForDaemon
  cases mfind k.timeoutStats sid <;> rfl

theorem updateTimeoutForDaemon_stats (k : Keepalive) (sid : String) (d : Int) :
    (updateTimeoutForDaemon k sid d).2.timeoutStats =
      mset k.timeoutStats sid (codeCore k.maxKeepalive (oldStatsFor k sid) d) ∧
    (updateTimeoutForDaemon k sid d).1 = (codeCore k.maxKeepalive (oldStatsFor k sid) d).timeout := by
  unfold updateTimeoutForDaemon timeoutStatsForDaemon oldStatsFor codeCore
  cases hm : mfind k.timeoutStats sid with
  | some ts => simp [hm]
  | none => simp [hm, mset_mset, defaultTimeoutStats]

theorem codeCore_eq_spec (mk : Int) (old : TimeoutStats) (d : Int) (h : 0 ≤ mk) :
    codeCore mk old d = specTimeoutUpdate mk old d := by
  simp only [codeCore, specTimeoutUpdate]
  rw [clamp_eq_max_min _ _ _ (tdiv_two_le_self h)]

/-- C2: one call to `updateTimeoutForDaemon` for peer `sid` with observed
round-trip `d` (integer nanoseconds) rewrites the peer's stats exactly by
the recursion `rttvar ← round(((1000−250)·rttvar + 250·|srtt_old − δ|)/1000)`,
then `srtt ← round(((1000−125)·srtt_old + 125·δ)/1000)` (the `rttvar`
update reads the pre-update `srtt`), then
`timeout ← clamp(srtt + 4·rttvar, maxKeepalive/2, maxKeepalive)`, and
returns the new timeout. -/
theorem updateTimeout_matches_rfc_recursion (k : Keepalive) (sid : String) (d : Int)
    (h : 0 ≤ k.maxKeepalive) :
    mfind (updateTimeoutForDaemon k sid d).2.timeoutStats sid =
        some (specTimeoutUpdate k.maxKeepalive (oldStatsFor k sid) d)
    ∧ (updateTimeoutForDaemon k sid d).1 =
        (specTimeoutUpdate k.maxKeepalive (oldStatsFor k sid) d).timeout := by
  obtain ⟨h1, h2⟩ := updateTimeoutForDaemon_stats k sid d
  rw [codeCore_eq_spec _ _ _ h] at h1 h2
  refine ⟨?_, h2⟩
  rw [h1, mfind_mset]
  simp

/-- Witness for C2 at a concrete input. -/
theorem updateTimeout_matches_rfc_recursion_witness :
    mfind (updateTimeoutForDaemon (initKeepalive 1000) "p1" 100).2.timeoutStats "p1" =
        some (specTimeoutUpdate 1000 (oldStatsFor (initKeepalive 1000) "p1") 100)
    ∧ (updateTimeoutForDaemon (initKeepalive 1000) "p1" 100).1 =
        (specTimeoutUpdate 1000 (oldStatsFor (initKeepalive 1000) "p1") 100).timeout :=
  updateTimeout_matches_rfc_recursion (initKeepalive 1000) "p1" 100 (by decide)

/-! ### The timeout range invariant (claim C3) -/

/-- Every stored timeout entry lies in `[maxKeepalive/2, maxKeepalive]`. -/
def statsInRange (mk : Int) (k : Keepalive) : Prop :=
  ∀ sid ts, mfind k.timeoutStats sid = some ts →
    Int.tdiv mk 2 ≤ ts.timeout ∧ ts.timeout ≤ mk

theorem codeCore_timeout_bounds (mk : Int) (old : TimeoutStats) (d : Int) (h : 0 ≤ mk) :
    Int.tdiv mk 2 ≤ (codeCore mk old d).timeout ∧ (codeCore mk old d).timeout ≤ mk := by
  have hd := tdiv_two_le_self h
  simp only [codeCore, maxI64, minI64]
  split_ifs <;> omega

theorem update_preserves_range (k : Keepalive) (sid : String) (d : Int)
    (h : 0 ≤ k.maxKeepalive) (hinv : statsInRange k.maxKeepalive k) :
    statsInRange k.maxKeepalive (updateTimeoutForDaemon k sid d).2 := by
  intro sid' ts' hfind
  obtain ⟨h1, _⟩ := updateTimeoutForDaemon_stats k sid d
  rw [h1, mfind_mset] at hfind
  by_cases hs : sid = sid'
  · subst hs
    rw [if_pos rfl] at hfind
    obtain rfl : codeCore k.maxKeepalive (oldStatsFor k sid) d = ts' :=
      Option.some.inj hfind
    exact codeCore_timeout_bounds _ _ _ h
  · rw [if_neg hs] at hfind
    exact hinv sid' ts' hfind

theorem applyUpdates_range : ∀ (ups : List (String × Int)) (k : Keepalive),
    0 ≤ k.maxKeepalive → statsInRange k.maxKeepalive k →
    (applyUpdates k ups).maxKeepalive = k.maxKeepalive
    ∧ statsInRange k.maxKeepalive (applyUpdates k ups)
  | [], k, _, hinv => ⟨rfl, hinv⟩
  | (sid, d) :: rest, k, h, hinv => by
      have hmk := updateTimeoutForDaemon_maxKeepalive k sid d
      have hstep := update_preserves_range k sid d h hinv
      have hrec := applyUpdates_range rest (updateTimeoutForDaemon k sid d).2
        (by rw [hmk]; exact h) (by rw [hmk]; exact hstep)
      exact ⟨by simpa [applyUpdates, hmk] using hrec.1, by simpa [applyUpdates, hmk] using hrec.2⟩

/-- C3: with `maxKeepalive > 0`, a missing per-peer entry materializes to
`srtt = maxKeepalive`, `rttvar = maxKeepalive/2`, `timeout = maxKeepalive`,
and after any sequence of `updateTimeoutForDaemon` calls with non-negative
durations every stored timeout, as well as the timeout returned by a
further update, stays within `[maxKeepalive/2, maxKeepalive]`. -/
theorem keepalive_timeout_invariant (mk : Int) (hmk : 0 < mk) (ups : List (String × Int))
    (hups : ∀ p ∈ ups, (0:Int) ≤ p.2) :
    (∀ sid, (timeoutStatsForDaemon (initKeepalive mk) sid).1 =
        { srtt := mk, rttvar := Int.tdiv mk 2, timeout := mk })
    ∧ (∀ sid ts, mfind (applyUpdates (initKeepalive mk) ups).timeoutStats sid = some ts →
        Int.tdiv mk 2 ≤ ts.timeout ∧ ts.timeout ≤ mk)
    ∧ (∀ sid d, (0:Int) ≤ d →
        Int.tdiv mk 2 ≤ (updateTimeoutForDaemon (applyUpdates (initKeepalive mk) ups) sid d).1
        ∧ (updateTimeoutForDaemon (applyUpdates (initKeepalive mk) ups) sid d).1 ≤ mk) := by
  have h0 : (0:Int) ≤ mk := le_of_lt hmk
  have hinit : statsInRange mk (initKeepalive mk) := by
    intro sid ts hfind
    simp [initKeepalive, mfind] at hfind
  have hrange := applyUpdates_range ups (initKeepalive mk) h0 hinit
  refine ⟨?_, hrange.2, ?_⟩
  · intro sid
    simp [timeoutStatsForDaemon, initKeepalive, mfind, defaultTimeoutStats]
  · intro sid d _
    have hmk' : (applyUpdates (initKeepalive mk) ups).maxKeepalive = mk := hrange.1
    have := (updateTimeoutForDaemon_stats (applyUpdates (initKeepalive mk) ups) sid d).2
    rw [this, hmk']
    exact codeCore_timeout_bounds mk _ d h0

/-- Witness for C3 at a concrete input. -/
theorem keepalive_timeout_invariant_witness :
    Int.tdiv 1000 2 ≤
      (updateTimeoutForDaemon
        (applyUpdates (initKeepalive 1000) [("t1", 5), ("t1", 7)]) "t2" 3).1
    ∧ (updateTimeoutForDaemon
        (applyUpdates (initKeepalive 1000) [("t1", 5), ("t1", 7)]) "t2" 3).1 ≤ 1000 :=
  (keepalive_timeout_invariant 1000 (by decide) [("t1", 5), ("t1", 7)]
    (by decide)).2.2 "t2" 3 (by decide)


/-! ## `AvgTracker` (rolling-average keepalive tracker) -/

/-- `avgTrackerRec`: arrival count, last-heard timestamp (ns), and the
accumulated inter-arrival total in milliseconds. -/
structure AvgTrackerRec where
  count : Int
  last : Int
  totalMS : Int
deriving DecidableEq, Repr

/-- `AvgTracker`: per-id records plus the timeout `factor` (a `uint8`). -/
structure AvgTracker where
  recs : List (String × AvgTrackerRec)
  factor : Nat
deriving DecidableEq, Repr

/-- `newAvgTracker`. -/
def newAvgTracker (factor : Nat) : AvgTracker := { recs := [], factor := factor }

/-- `avgTrackerRec.avg`: `totalMS / count` (Go truncating division). -/
def AvgTrackerRec.avg (r : AvgTrackerRec) : Int := Int.tdiv r.totalMS r.count

/-- The record written by one `HeardFrom` call: a reset or a missing
record re-creates it with `count = 0`; otherwise the inter-arrival gap is
accumulated (in ms, `1 ms = 1000000 ns`). -/
def heardRec (old : Option AvgTrackerRec) (reset : Bool) (now : Int) : AvgTrackerRec :=
  match old with
  | none => { count := 0, totalMS := 0, last := now }
  | some r =>
      if reset then { count := 0, totalMS := 0, last := now }
      else
        { count := r.count + 1, last := now,
          totalMS := r.totalMS + Int.tdiv (now - r.last) 1000000 }

/-- `AvgTracker.HeardFrom` at monotonic time `now` (ns). -/
def AvgTracker.heardFrom (a : AvgTracker) (id : String) (reset : Bool) (now : Int) : AvgTracker :=
  { a with recs := mset a.recs id (heardRec (mfind a.recs id) reset now) }

/-- `AvgTracker.TimedOut` at monotonic time `now` (ns). -/
def AvgTracker.timedOut (a : AvgTracker) (id : String) (now : Int) : Bool :=
  match mfind a.recs id with
  | none => true
  | some r =>
      if r.count = 0 then false
      else decide (Int.tdiv (now - r.last) 1000000 > (a.factor : Int) * r.avg)

/-- Apply a sequence of `HeardFrom` calls `(id, reset, now)`. -/
def applyHeard (a : AvgTracker) : List (String × Bool × Int) → AvgTracker
  | [] => a
  | (id, reset, now) :: rest => applyHeard (a.heardFrom id reset now) rest

/-- All record counts are non-negative. -/
def countsNonneg (a : AvgTracker) : Prop :=
  ∀ id r, mfind a.recs id = some r → 0 ≤ r.count

theorem heardFrom_factor (a : AvgTracker) (id : String) (reset : Bool) (now : Int) :
    (a.heardFrom id reset now).factor = a.factor := rfl

theorem heardRec_count_nonneg (a : AvgTracker) (id : String) (reset : Bool) (now : Int)
    (h : countsNonneg a) : 0 ≤ (heardRec (mfind a.recs id) reset now).count := by
  cases hm : mfind a.recs id with
  | none => simp [heardRec]
  | some r =>
      have hr := h id r hm
      by_cases hres : reset
      · simp [heardRec, hres]
      · simp only [heardRec, if_neg hres]
        show (0:Int) ≤ r.count + 1
        omega

theorem heardFrom_countsNonneg (a : AvgTracker) (id : String) (reset : Bool) (now : Int)
    (h : countsNonneg a) : countsNonneg (a.heardFrom id reset now) := by
  intro id' r' hfind
  unfold AvgTracker.heardFrom at hfind
  simp only [mfind_mset] at hfind
  by_cases hid : id = id'
  · rw [if_pos hid] at hfind
    obtain rfl := Option.some.inj hfind
    exact heardRec_count_nonneg a id reset now h
  · rw [if_neg hid] at hfind
    exact h id' r' hfind

theorem applyHeard_countsNonneg : ∀ (ops : List (String × Bool × Int)) (a : AvgTracker),
    countsNonneg a → countsNonneg (applyHeard a ops) ∧ (applyHeard a ops).factor = a.factor
  | [], _, h => ⟨h, rfl⟩
  | (id, reset, now) :: rest, a, h => by
      have hstep := heardFrom_countsNonneg a id reset now h
      have hrec := applyHeard_countsNonneg rest (a.heardFrom id reset now) hstep
      refine ⟨hrec.1, ?_⟩
      show (applyHeard (a.heardFrom id reset now) rest).factor = a.factor
      rw [hrec.2, heardFrom_factor]

/-- C10: `AvgTracker.TimedOut` is total and never divides by zero. For any
tracker built from `HeardFrom` calls: an id with no record yields `true`;
a record with `count = 0` (fresh or reset) yields `false` without reaching
the average; and the `totalMS/count` branch is reached only with
`count > 0`. -/
theorem avgTracker_timedOut_total (factor : Nat) (ops : List (String × Bool × Int))
    (id : String) (now : Int) :
    (mfind (applyHeard (newAvgTracker factor) ops).recs id = none →
        (applyHeard (newAvgTracker factor) ops).timedOut id now = true)
    ∧ (∀ r, mfind (applyHeard (newAvgTracker factor) ops).recs id = some r → r.count = 0 →
        (applyHeard (newAvgTracker factor) ops).timedOut id now = false)
    ∧ (∀ r, mfind (applyHeard (newAvgTracker factor) ops).recs id = some r → r.count ≠ 0 →
        0 < r.count
        ∧ (applyHeard (newAvgTracker factor) ops).timedOut id now =
            decide (Int.tdiv (now - r.last) 1000000 >
              (factor : Int) * Int.tdiv r.totalMS r.count)) := by
  have hinit : countsNonneg (newAvgTracker factor) := by
    intro i r hfind
    simp [newAvgTracker, mfind] at hfind
  obtain ⟨hcnt, hfac⟩ := applyHeard_countsNonneg ops (newAvgTracker factor) hinit
  refine ⟨?_, ?_, ?_⟩
  · intro hnone
    unfold AvgTracker.timedOut
    rw [hnone]
  · intro r hsome hzero
    unfold AvgTracker.timedOut
    rw [hsome]
    simp [hzero]
  · intro r hsome hnz
    have hpos : 0 < r.count := lt_of_le_of_ne (hcnt id r hsome) (fun hc => hnz hc.symm)
    refine ⟨hpos, ?_⟩
    unfold AvgTracker.timedOut
    rw [hsome]
    simp only [if_neg hnz]
    rw [hfac]
    rfl

/-- Witness for C10 at a concrete input. -/
theorem avgTracker_timedOut_total_witness :
    (applyHeard (newAvgTracker 3) [("t1", false, 10)]).timedOut "t9" 20 = true :=
  (avgTracker_timedOut_total 3 [("t1", false, 10)] "t9" 20).1 (by decide)

/-! ## Cluster map (`Smap` / `smapX`) -/

/-- `cluster.Snode`: node descriptor. Identity is the id, the daemon type
and the three network endpoints; the flag bitset is modelled by explicit
booleans (Modelled from the spec: the `cluster` package's flag constants
are outside the extract; the spec lists the flags
{NonElectable, Maintenance, Decommission}). -/
structure Snode where
  id : String
  daeType : String
  pubURL : String
  ctrlURL : String
  dataURL : String
  nonElectable : Bool
  maintenance : Bool
  decommission : Bool
deriving DecidableEq, Repr

/-- `Snode.IsProxy`. -/
def Snode.isProxy (si : Snode) : Bool := si.daeType = "proxy"

/-- `Snode.IsTarget`. -/
def Snode.isTarget (si : Snode) : Bool := si.daeType = "target"

/-- `si.IsAnySet(cluster.NodeFlagsMaintDecomm)`. -/
def Snode.maintDecomm (si : Snode) : Bool := si.maintenance || si.decommission

/-- `smapX` / `cluster.Smap`: versioned roster with proxy and target maps
and the current primary's id. -/
structure SmapX where
  version : Int
  pmap : List (String × Snode)
  tmap : List (String × Snode)
  primary : String
deriving DecidableEq, Repr

/-- `Smap.GetProxy`. -/
def SmapX.getProxy (m : SmapX) (sid : String) : Option Snode := mfind m.pmap sid

/-- `Smap.GetTarget`. -/
def SmapX.getTarget (m : SmapX) (sid : String) : Option Snode := mfind m.tmap sid

/-- `Smap.GetNode`. Modelled from the spec: every id appears in at most
one of the two maps, so lookup order is immaterial. -/
def SmapX.getNode (m : SmapX) (sid : String) : Option Snode :=
  match m.getTarget sid with
  | some si => some si
  | none => m.getProxy sid

/-- `Smap.GetNodeNotMaint`. Modelled from the spec: returns the node for
`sid` unless it is absent or carries a Maintenance/Decommission flag
("absent-or-maintenance"). -/
def SmapX.getNodeNotMaint (m : SmapX) (sid : String) : Option Snode :=
  match m.getNode sid with
  | some si => if si.maintDecomm then none else some si
  | none => none

/-- `Smap.CountActiveTargets`. Modelled from the spec: the number of
targets whose flags do not intersect {Maintenance, Decommission}. -/
def SmapX.countActiveTargets (m : SmapX) : Nat :=
  (m.tmap.filter (fun p => !(p.2.maintDecomm))).length

/-- The fields of `smapModifier` that `mustRunRebalance` reads and
writes: the previous map `ctx.smap` and the cached `ctx._mustReb`. -/
structure SmapModifier where
  smap : SmapX
  mustReb : Bool
deriving DecidableEq, Repr

/-- `mustRunRebalance(ctx, cur)`: returns the cached `_mustReb` if set;
returns `false` when rebalance is disabled in the config
(`rebEnabled`); otherwise scans `cur.Tmap` for an active target that is
absent-or-maintenance in `prev` (added/activated) and `prev.Tmap` for an
active target that is absent-or-maintenance in `cur`
(deleted/deactivated), and finally requires both maps to hold at least
one active target. The computed value is cached back into the
modifier. -/
def mustRunRebalance (rebEnabled : Bool) (ctx : SmapModifier) (cur : SmapX) :
    Bool × SmapModifier :=
  let prev := ctx.smap
  if ctx.mustReb then (true, ctx)
  else if !rebEnabled then (false, ctx)
  else
    let added := cur.tmap.any fun p =>
      !(p.2.isProxy || p.2.maintDecomm) && (prev.getNodeNotMaint p.2.id).isNone
    let removed := prev.tmap.any fun p =>
      !(p.2.isProxy || p.2.maintDecomm) && (cur.getNodeNotMaint p.2.id).isNone
    let m0 := added || removed
    let m1 := m0 && (decide (prev.countActiveTargets ≠ 0)
      && decide (cur.countActiveTargets ≠ 0))
    (m1, { ctx with mustReb := m1 })

/-- The rebalance condition in the words of the claim: an active
(non-Maintenance/Decommission, target-typed) node of `cur.Tmap` is
absent-or-in-maintenance in `prev`, or an active target of `prev.Tmap` is
absent-or-in-maintenance in `cur`, and both maps hold at least one active
target. -/
def rebRequiredSpec (prev cur : SmapX) : Prop :=
  ((∃ p ∈ cur.tmap, ¬p.2.isProxy ∧ ¬p.2.maintenance ∧ ¬p.2.decommission
        ∧ prev.getNodeNotMaint p.2.id = none)
    ∨ (∃ p ∈ prev.tmap, ¬p.2.isProxy ∧ ¬p.2.maintenance ∧ ¬p.2.decommission
        ∧ cur.getNodeNotMaint p.2.id = none))
  ∧ prev.countActiveTargets ≠ 0 ∧ cur.countActiveTargets ≠ 0

/-- An active target used in the C1 counterexample. -/
def tgtNode (sid : String) : Snode :=
  { id := sid, daeType := "target", pubURL := "http://" ++ sid
    ctrlURL := "http://" ++ sid, dataURL := "http://" ++ sid
    nonElectable := false, maintenance := false, decommission := false }

/-- Previous map for the C1 counterexample: one active target `t1`. -/
def prevC1 : SmapX :=
  { version := 5, pmap := [], tmap := [("t1", tgtNode "t1")], primary := "p1" }

/-- Current map for the C1 counterexample: active targets `t1`, `t2`. -/
def curC1 : SmapX :=
  { version := 6, pmap := [], tmap := [("t1", tgtNode "t1"), ("t2", tgtNode "t2")]
    primary := "p1" }

/-- C1 counterexample: the claim states `mustRunRebalance` is `true`
exactly when the membership condition holds, with no proviso about the
configuration — but with `Rebalance.Enabled = false` the function returns
`false` even though a new active target joined (`prevC1` → `curC1`) and
both maps have active targets. -/
theorem mustRunRebalance_claim_counterexample :
    ¬ (∀ (rebEnabled : Bool) (prev cur : SmapX),
        ((mustRunRebalance rebEnabled { smap := prev, mustReb := false } cur).1 = true
          ↔ rebRequiredSpec prev cur)) := by
  intro h
  have hspec : rebRequiredSpec prevC1 curC1 := by
    unfold rebRequiredSpec
    decide
  have := (h false prevC1 curC1).2 hspec
  exact absurd this (by decide)

/-- C1 (amended): provided rebalance is enabled in the configuration and
the modifier's cached `_mustReb` flag is initially unset,
`mustRunRebalance` returns `true` iff an active target of `cur` is
absent-or-in-maintenance in `prev` or an active target of `prev` is
absent-or-in-maintenance in `cur`, and both maps hold at least one active
target; with rebalance disabled (and the flag unset) it returns `false`
unconditionally. -/
theorem mustRunRebalance_spec (prev cur : SmapX) :
    (((mustRunRebalance true { smap := prev, mustReb := false } cur).1 = true)
      ↔ rebRequiredSpec prev cur)
    ∧ (mustRunRebalance false { smap := prev, mustReb := false } cur).1 = false := by
  constructor
  · simp only [mustRunRebalance, rebRequiredSpec, Bool.not_true, if_false,
      Bool.and_eq_true, Bool.or_eq_true, List.any_eq_true, decide_eq_true_eq,
      Bool.not_eq_true', Bool.not_eq_eq_eq_not, Option.isNone_iff_eq_none,
      Bool.false_eq_true, if_neg, Bool.not_false, ite_false, ite_true]
    constructor
    · rintro ⟨hor, hprev, hcur⟩
      refine ⟨?_, hprev, hcur⟩
      rcases hor with ⟨p, hp, hcond⟩ | ⟨p, hp, hcond⟩
      · left
        refine ⟨p, hp, ?_⟩
        have h1 := hcond.1
        have h2 := hcond.2
        simp only [Bool.or_eq_false_iff] at h1
        have hmd := h1.2
        simp only [Snode.maintDecomm, Bool.or_eq_false_iff] at hmd
        exact ⟨by simp [h1.1], by simp [hmd.1], by simp [hmd.2], h2⟩
      · right
        refine ⟨p, hp, ?_⟩
        have h1 := hcond.1
        have h2 := hcond.2
        simp only [Bool.or_eq_false_iff] at h1
        have hmd := h1.2
        simp only [Snode.maintDecomm, Bool.or_eq_false_iff] at hmd
        exact ⟨by simp [h1.1], by simp [hmd.1], by simp [hmd.2], h2⟩
    · rintro ⟨hor, hprev, hcur⟩
      refine ⟨?_, hprev, hcur⟩
      rcases hor with ⟨p, hp, hpx, hm, hd, habs⟩ | ⟨p, hp, hpx, hm, hd, habs⟩
      · left
        refine ⟨p, hp, ?_, habs⟩
        simp only [Bool.or_eq_false_iff, Snode.maintDecomm]
        simp only [Bool.not_eq_true] at hpx hm hd
        exact ⟨hpx, by simp [hm, hd]⟩
      · right
        refine ⟨p, hp, ?_, habs⟩
        simp only [Bool.or_eq_false_iff, Snode.maintDecomm]
        simp only [Bool.not_eq_true] at hpx hm hd
        exact ⟨hpx, by simp [hm, hd]⟩
  · simp [mustRunRebalance]

/-! ## The keepalive `register` retry loop (non-primary heartbeat) -/

/-- `kaNumRetries`. -/
def kaNumRetries : Nat := 3

/-- Outcome of one keepalive send: success, or a failure classified by
`cos.IsRetriableConnErr` and `cos.IsUnreachable` (Modelled from the spec:
the `cos` error classifiers are outside the extract; they tag
connection-refused/unreachable network errors). -/
inductive KaOutcome where
  | ok
  | fail (retriableConn : Bool) (unreachable : Bool)
deriving DecidableEq, Repr

/-- `err == nil`. -/
def KaOutcome.isOk : KaOutcome → Bool
  | .ok => true
  | .fail _ _ => false

/-- `cos.IsRetriableConnErr(err)`. -/
def KaOutcome.connFail : KaOutcome → Bool
  | .ok => false
  | .fail rc _ => rc

/-- `cos.IsUnreachable(err, status)`. -/
def KaOutcome.unreach : KaOutcome → Bool
  | .ok => false
  | .fail _ u => u

/-- Result of a completed `register` call: the returned `stopped` flag,
the final retry counter `i`, the retry ticks consumed, the RTT samples
fed to `updateTimeoutForDaemon` (in order), and the final timeout-stats
state. -/
structure RegOut where
  stopped : Bool
  attempts : Nat
  consumed : List (KaOutcome × Int)
  samples : List Int
  k : Keepalive
deriving DecidableEq, Repr

/-- The retry `for`/`select` loop of `keepalive.register`, driven by the
list of retry-tick outcomes `(outcome, measured elapsed ns)`; `i` is the
attempt counter, `stopping` the `daemon.stopping` flag. Returns `none` if
the loop is still waiting for further ticks when the list runs out. -/
def registerLoop (pid : String) (stopping : Bool) :
    Keepalive → Nat → List (KaOutcome × Int) → List (KaOutcome × Int) → List Int →
      Option RegOut
  | _, _, [], _, _ => none
  | k, i, (o, d) :: rest, consumed, samples =>
      let i' := i + 1
      let delta := if o.connFail then k.maxKeepalive else d
      let k' := (updateTimeoutForDaemon k pid delta).2
      let consumed' := consumed ++ [(o, d)]
      let samples' := samples ++ [delta]
      if o.isOk then some ⟨false, i', consumed', samples', k'⟩
      else if i' = kaNumRetries then some ⟨true, i', consumed', samples', k'⟩
      else if o.unreach then registerLoop pid stopping k' i' rest consumed' samples'
      else if stopping then some ⟨true, i', consumed', samples', k'⟩
      else registerLoop pid stopping k' i' rest consumed' samples'

/-- `keepalive.register`: one keepalive send to the primary `pid` (which
reads — and thereby materializes — the per-peer timeout entry); on
success return `stopped = false` with no retries, otherwise enter the
retry loop. -/
def register (k : Keepalive) (pid : String) (firstOutcome : KaOutcome)
    (retries : List (KaOutcome × Int)) (stopping : Bool) : Option RegOut :=
  let k1 := (timeoutStatsForDaemon k pid).2
  if firstOutcome.isOk then some ⟨false, 0, [], [], k1⟩
  else registerLoop pid stopping k1 0 retries [] []

/-- `targetKeepalive.doKeepalive`: validate the Smap, `register`, and on
`stopped` invoke `onPrimaryFail`. Returns
`(stopped, onPrimaryFail-invoked)`. -/
def doKeepaliveTarget (smapValid : Bool) (k : Keepalive) (pid : String)
    (firstOutcome : KaOutcome) (retries : List (KaOutcome × Int)) (stopping : Bool) :
    Option (Bool × Bool) :=
  if smapValid then
    (register k pid firstOutcome retries stopping).map fun out => (out.stopped, out.stopped)
  else some (false, false)

theorem timeoutStatsForDaemon_maxKeepalive (k : Keepalive) (sid : String) :
    (timeoutStatsForDaemon k sid).2.maxKeepalive = k.maxKeepalive := by
  unfold timeoutStatsForDaemon
  cases mfind k.timeoutStats sid <;> rfl

theorem registerLoop_fail_step (pid : String) (k : Keepalive) (i : Nat) (o : KaOutcome)
    (d : Int) (rest : List (KaOutcome × Int)) (consumed : List (KaOutcome × Int))
    (samples : List Int) (hfail : o.isOk = false) (hi : ¬ i + 1 = kaNumRetries) :
    registerLoop pid false k i ((o, d) :: rest) consumed samples =
      registerLoop pid false (updateTimeoutForDaemon k pid
          (if o.connFail then k.maxKeepalive else d)).2
        (i + 1) rest (consumed ++ [(o, d)])
        (samples ++ [if o.connFail then k.maxKeepalive else d]) := by
  simp only [registerLoop, hfail, Bool.false_eq_true, if_false, if_neg hi]
  cases hu : o.unreach <;> simp

theorem registerLoop_limit_step (pid : String) (stopping : Bool) (k : Keepalive)
    (o : KaOutcome) (d : Int) (rest : List (KaOutcome × Int))
    (consumed : List (KaOutcome × Int)) (samples : List Int) (hfail : o.isOk = false) :
    ∃ out, registerLoop pid stopping k (kaNumRetries - 1) ((o, d) :: rest) consumed samples
        = some out ∧ out.stopped = true ∧ out.attempts = kaNumRetries := by
  have h3 : kaNumRetries - 1 + 1 = kaNumRetries := rfl
  simp only [registerLoop, hfail, Bool.false_eq_true, if_false, h3, if_pos rfl]
  exact ⟨_, rfl, rfl, h3⟩

theorem registerLoop_attempts_le : ∀ (rest : List (KaOutcome × Int)) (pid : String)
    (stopping : Bool) (k : Keepalive) (i : Nat) (consumed : List (KaOutcome × Int))
    (samples : List Int) (out : RegOut), i < kaNumRetries →
    registerLoop pid stopping k i rest consumed samples = some out →
    out.attempts ≤ kaNumRetries
  | [], _, _, _, _, _, _, _, _, h => by cases h
  | (o, d) :: rest, pid, stopping, k, i, consumed, samples, out, hi, h => by
      simp only [registerLoop] at h
      by_cases hok : o.isOk = true
      · rw [if_pos hok] at h
        obtain rfl := Option.some.inj h
        show i + 1 ≤ kaNumRetries
        omega
      · rw [if_neg hok] at h
        by_cases hlim : i + 1 = kaNumRetries
        · rw [if_pos hlim] at h
          obtain rfl := Option.some.inj h
          show i + 1 ≤ kaNumRetries
          omega
        · rw [if_neg hlim] at h
          have hlt : i + 1 < kaNumRetries := by omega
          by_cases hu : o.unreach = true
          · rw [if_pos hu] at h
            exact registerLoop_attempts_le rest pid stopping _ _ _ _ out hlt h
          · rw [if_neg hu] at h
            by_cases hst : stopping = true
            · rw [if_pos hst] at h
              obtain rfl := Option.some.inj h
              show i + 1 ≤ kaNumRetries
              omega
            · rw [if_neg hst] at h
              exact registerLoop_attempts_le rest pid stopping _ _ _ _ out hlt h

theorem registerLoop_succeeds_within : ∀ (pre : List (KaOutcome × Int)) (pid : String)
    (k : Keepalive) (i : Nat) (d : Int) (post : List (KaOutcome × Int))
    (consumed : List (KaOutcome × Int)) (samples : List Int),
    i + pre.length + 1 ≤ kaNumRetries → (∀ a ∈ pre, a.1.isOk = false) →
    ∃ out, registerLoop pid false k i (pre ++ (KaOutcome.ok, d) :: post) consumed samples
        = some out ∧ out.stopped = false
  | [], pid, k, i, d, post, consumed, samples, _, _ => by
      have hstep : registerLoop pid false k i ((KaOutcome.ok, d) :: post) consumed samples =
          some ⟨false, i + 1, consumed ++ [(KaOutcome.ok, d)], samples ++ [d],
            (updateTimeoutForDaemon k pid d).2⟩ := by
        simp [registerLoop, KaOutcome.isOk, KaOutcome.connFail]
      exact ⟨_, by simpa using hstep, rfl⟩
  | (o, e) :: pre, pid, k, i, d, post, consumed, samples, hlen, hfail => by
      have hofail : o.isOk = false := hfail (o, e) (by simp)
      have hi : ¬ i + 1 = kaNumRetries := by
        simp only [List.length_cons] at hlen
        omega
      rw [List.cons_append, registerLoop_fail_step pid k i o e _ _ _ hofail hi]
      exact registerLoop_succeeds_within pre pid _ (i + 1) d post _ _
        (by simp only [List.length_cons] at hlen; omega)
        (fun a ha => hfail a (by simp [ha]))

/-- C5: a failed keepalive to the primary is retried at most
`kaNumRetries = 3` times; a success on any of the first three retry ticks
makes `register` return `stopped = false`; three failed retries make it
return `stopped = true` with the counter at 3; an immediately successful
keepalive consumes no retries; and `doKeepalive` invokes `onPrimaryFail`
exactly when `register` returned `stopped = true` — never when the
keepalive or one of its retries succeeded. -/
theorem register_retry_behavior :
    (∀ (k : Keepalive) (pid : String) (fo : KaOutcome) (retries : List (KaOutcome × Int))
        (stopping : Bool) (out : RegOut),
        register k pid fo retries stopping = some out → out.attempts ≤ kaNumRetries)
    ∧ (∀ (k : Keepalive) (pid : String) (retries : List (KaOutcome × Int)) (stopping : Bool),
        ∃ out, register k pid .ok retries stopping = some out
          ∧ out.stopped = false ∧ out.attempts = 0)
    ∧ (∀ (k : Keepalive) (pid : String) (rc u : Bool) (pre : List (KaOutcome × Int))
        (d : Int) (post : List (KaOutcome × Int)),
        pre.length < kaNumRetries → (∀ a ∈ pre, a.1.isOk = false) →
        ∃ out, register k pid (.fail rc u) (pre ++ (KaOutcome.ok, d) :: post) false = some out
          ∧ out.stopped = false)
    ∧ (∀ (k : Keepalive) (pid : String) (rc u : Bool) (e1 e2 e3 : KaOutcome × Int)
        (post : List (KaOutcome × Int)),
        e1.1.isOk = false → e2.1.isOk = false → e3.1.isOk = false →
        ∃ out, register k pid (.fail rc u) (e1 :: e2 :: e3 :: post) false = some out
          ∧ out.stopped = true ∧ out.attempts = kaNumRetries)
    ∧ (∀ (k : Keepalive) (pid : String) (fo : KaOutcome) (retries : List (KaOutcome × Int))
        (stopping : Bool) (out : RegOut),
        register k pid fo retries stopping = some out →
        doKeepaliveTarget true k pid fo retries stopping = some (out.stopped, out.stopped)) := by
  refine ⟨?_, ?_, ?_, ?_, ?_⟩
  · intro k pid fo retries stopping out h
    unfold register at h
    by_cases hok : fo.isOk = true
    · rw [if_pos hok] at h
      obtain rfl := Option.some.inj h
      show 0 ≤ kaNumRetries
      omega
    · rw [if_neg hok] at h
      have h03 : (0:Nat) < kaNumRetries := by
        show 0 < 3
        omega
      exact registerLoop_attempts_le retries pid stopping _ 0 [] [] out h03 h
  · intro k pid retries stopping
    exact ⟨_, rfl, rfl, rfl⟩
  · intro k pid rc u pre d post hlen hfail
    unfold register
    simp only [KaOutcome.isOk, Bool.false_eq_true, if_false]
    refine registerLoop_succeeds_within pre pid _ 0 d post [] [] ?_ hfail
    have h3 : kaNumRetries = 3 := rfl
    omega
  · intro k pid rc u e1 e2 e3 post h1 h2 h3
    unfold register
    simp only [KaOutcome.isOk, Bool.false_eq_true, if_false]
    obtain ⟨o1, d1⟩ := e1
    obtain ⟨o2, d2⟩ := e2
    obtain ⟨o3, d3⟩ := e3
    rw [registerLoop_fail_step pid _ 0 o1 d1 _ _ _ h1 (by decide),
      registerLoop_fail_step pid _ 1 o2 d2 _ _ _ h2 (by decide)]
    exact registerLoop_limit_step pid false _ o3 d3 post _ _ h3
  · intro k pid fo retries stopping out h
    unfold doKeepaliveTarget
    rw [if_pos rfl, h]
    rfl

/-- Witness for C5 at a concrete input: first keepalive fails, all three
retries fail, `register` stops and the counter reads 3. -/
theorem register_retry_behavior_witness :
    ∃ out, register (initKeepalive 10) "p1" (.fail true true)
        [(.fail true true, 1), (.fail false true, 2), (.fail false false, 3)] false = some out
      ∧ out.stopped = true ∧ out.attempts = kaNumRetries :=
  register_retry_behavior.2.2.2.1 (initKeepalive 10) "p1" true true
    (.fail true true, 1) (.fail false true, 2) (.fail false false, 3) []
    (by decide) (by decide) (by decide)

theorem registerLoop_samples : ∀ (rest : List (KaOutcome × Int)) (pid : String)
    (stopping : Bool) (k : Keepalive) (M : Int) (i : Nat)
    (consumed : List (KaOutcome × Int)) (samples : List Int) (out : RegOut),
    k.maxKeepalive = M →
    registerLoop pid stopping k i rest consumed samples = some out →
    ∃ δ, out.consumed = consumed ++ δ
      ∧ out.samples = samples ++ δ.map (fun a => if a.1.connFail then M else a.2)
      ∧ out.attempts = i + δ.length
  | [], _, _, _, _, _, _, _, _, _, h => by cases h
  | (o, d) :: rest, pid, stopping, k, M, i, consumed, samples, out, hM, h => by
      simp only [registerLoop] at h
      have hM' : (updateTimeoutForDaemon k pid
          (if o.connFail then k.maxKeepalive else d)).2.maxKeepalive = M := by
        rw [updateTimeoutForDaemon_maxKeepalive, hM]
      by_cases hok : o.isOk = true
      · rw [if_pos hok] at h
        obtain rfl := Option.some.inj h
        exact ⟨[(o, d)], by simp [hM], by simp [hM], by simp⟩
      · rw [if_neg hok] at h
        by_cases hlim : i + 1 = kaNumRetries
        · rw [if_pos hlim] at h
          obtain rfl := Option.some.inj h
          exact ⟨[(o, d)], by simp [hM], by simp [hM], by simp⟩
        · rw [if_neg hlim] at h
          by_cases hu : o.unreach = true
          · rw [if_pos hu] at h
            obtain ⟨δ, hc, hs, ha⟩ := registerLoop_samples rest pid stopping _ M (i + 1)
              _ _ out hM' h
            refine ⟨(o, d) :: δ, ?_, ?_, ?_⟩
            · rw [hc]; simp
            · rw [hs]; simp [hM]
            · rw [ha]; simp; omega
          · rw [if_neg hu] at h
            by_cases hst : stopping = true
            · rw [if_pos hst] at h
              obtain rfl := Option.some.inj h
              exact ⟨[(o, d)], by simp [hM], by simp [hM], by simp⟩
            · rw [if_neg hst] at h
              obtain ⟨δ, hc, hs, ha⟩ := registerLoop_samples rest pid stopping _ M (i + 1)
                _ _ out hM' h
              refine ⟨(o, d) :: δ, ?_, ?_, ?_⟩
              · rw [hc]; simp
              · rw [hs]; simp [hM]
              · rw [ha]; simp; omega

/-- The retry run of the C6 counterexample: the first keepalive and all
three retries fail with retriable connection errors. -/
def c6run : Option RegOut :=
  register (initKeepalive 10) "p1" (.fail true true)
    [(.fail true true, 1), (.fail true true, 1), (.fail true true, 1)] false

/-- C6 counterexample: the claim says a retry failing with a
connection-refused/unreachable (retriable connection) error "does not
increment the attempt counter penalty" — i.e. only non-retriable-conn
attempts would count. But in a run whose three retries all fail with
retriable connection errors, `register` still exhausts `kaNumRetries`
with the counter at 3 (and returns `stopped = true`), so such failures do
increment the counter. -/
theorem register_connRefused_counter_counterexample :
    ¬ (∀ (k : Keepalive) (pid : String) (fo : KaOutcome) (retries : List (KaOutcome × Int))
        (stopping : Bool) (out : RegOut),
        register k pid fo retries stopping = some out →
        out.attempts = (out.consumed.filter (fun a => !a.1.connFail)).length) := by
  intro h
  have hs : c6run.isSome = true := by decide
  cases hreg : c6run with
  | none => rw [hreg] at hs; cases hs
  | some out =>
      have h1 := h (initKeepalive 10) "p1" (.fail true true)
        [(.fail true true, 1), (.fail true true, 1), (.fail true true, 1)] false out hreg
      have h2 : out.attempts = 3 := by
        have hmap : c6run.map RegOut.attempts = some 3 := by decide
        rw [hreg] at hmap
        exact Option.some.inj hmap
      have h3 : (out.consumed.filter (fun a => !a.1.connFail)).length = 0 := by
        have hmap : c6run.map
            (fun o => (o.consumed.filter (fun a => !a.1.connFail)).length) = some 0 := by
          decide
        rw [hreg] at hmap
        exact Option.some.inj hmap
      rw [h1, h3] at h2
      cases h2

/-- C6 (amended): every consumed retry tick — retriable-connection
failures included — increments the attempt counter, and the RTT sample
fed to `updateTimeoutForDaemon` for a retry failing with a retriable
connection error is clamped to `maxKeepalive` in place of the measured
elapsed time (so a fast connection failure never lowers the next
retransmission timeout). -/
theorem register_retry_samples (k : Keepalive) (pid : String) (fo : KaOutcome)
    (retries : List (KaOutcome × Int)) (stopping : Bool) (out : RegOut)
    (h : register k pid fo retries stopping = some out) :
    out.attempts = out.consumed.length
    ∧ out.samples = out.consumed.map
        (fun a => if a.1.connFail then k.maxKeepalive else a.2) := by
  unfold register at h
  by_cases hok : fo.isOk = true
  · rw [if_pos hok] at h
    obtain rfl := Option.some.inj h
    exact ⟨rfl, rfl⟩
  · rw [if_neg hok] at h
    obtain ⟨δ, hc, hsamp, ha⟩ := registerLoop_samples retries pid stopping _ k.maxKeepalive 0
      [] [] out (timeoutStatsForDaemon_maxKeepalive k pid) h
    simp only [List.nil_append] at hc hsamp
    rw [hc, hsamp, ha]
    simp

/-- Witness for C6 (amended) at a concrete input. -/
theorem register_retry_samples_witness :
    (register (initKeepalive 10) "p2" (.fail false true) [(.ok, 7)] false).map RegOut.attempts
      = (register (initKeepalive 10) "p2" (.fail false true) [(.ok, 7)] false).map
          (fun o => o.consumed.length) := by
  cases hreg : register (initKeepalive 10) "p2" (.fail false true) [(.ok, 7)] false with
  | none => rfl
  | some out =>
      have h := (register_retry_samples (initKeepalive 10) "p2" (.fail false true)
        [(.ok, 7)] false out hreg).1
      simp [h]

/-! ## Administrative set-primary (`cluSetPrimary`) -/

/-- One node's response in a broadcast (`callResult`): responder id and
optional error. -/
structure CallRes where
  siId : String
  err : Option String
deriving DecidableEq, Repr

/-- Externally visible actions of the set-primary handler, in program
order. -/
inductive PrimEvent where
  | bcastPrepare
  | writeErr
  | setTransition (v : Bool)
  | publishSmap (pid : String)
  | becomeNonPrimary
  | bcastCommit
  | fatalExit
deriving DecidableEq, Repr

/-- The local state `cluSetPrimary` may change: the SMap owner's snapshot
and the `inPrimaryTransition` flag. -/
structure PrimaryState where
  smap : SmapX
  inPrimaryTransition : Bool
deriving DecidableEq, Repr

/-- `proxyrunner.cluSetPrimary` after request parsing/forwarding:
validate the candidate (`psi` present, not self, not under maintenance
— `PresentInMaint`, modelled from the spec's "cannot set new primary -
under maintenance"), require the cluster started and no RMD startup
in flight, marshal cluster-meta (`cluMetaOk`), broadcast the prepare
phase and require success from every node (any failure aborts with an
error and no local change), then set `inPrimaryTransition`, publish the
clone with the new primary while `becomeNonPrimary()` runs on the
metasyncer, broadcast the commit phase (an error from the new primary is
fatal), and finally clear `inPrimaryTransition` (deferred store). -/
def cluSetPrimary (st : PrimaryState) (selfId proxyid : String)
    (clusterStarted rmdStartup cluMetaOk : Bool)
    (prepareResults commitResults : List CallRes) : PrimaryState × List PrimEvent :=
  match st.smap.getProxy proxyid with
  | none => (st, [.writeErr])
  | some psi =>
      if proxyid = selfId then (st, [])
      else if psi.maintenance then (st, [.writeErr])
      else if !clusterStarted || rmdStartup then (st, [.writeErr])
      else if !cluMetaOk then (st, [.writeErr])
      else if prepareResults.any (fun r => r.err.isSome) then
        (st, [.bcastPrepare, .writeErr])
      else
        let st' : PrimaryState :=
          { smap := { st.smap with primary := proxyid }, inPrimaryTransition := false }
        let commitEvents :=
          if commitResults.any (fun r => r.err.isSome && r.siId = proxyid) then
            [PrimEvent.fatalExit]
          else []
        (st', [.bcastPrepare, .setTransition true, .publishSmap proxyid,
          .becomeNonPrimary, .bcastCommit] ++ commitEvents ++ [.setTransition false])

/-- C4: in the set-primary flow, if any node's prepare-phase response is
an error the handler reports an error to the caller and performs no local
state change: the events are exactly the prepare broadcast followed by
the error reply — `inPrimaryTransition` is never set, the SMap snapshot
is untouched, `becomeNonPrimary` is not called, and no commit broadcast
is issued. -/
theorem cluSetPrimary_prepare_failure (st : PrimaryState) (selfId proxyid : String)
    (prepareResults commitResults : List CallRes) (psi : Snode)
    (hpsi : st.smap.getProxy proxyid = some psi) (hmaint : psi.maintenance = false)
    (hself : ¬ proxyid = selfId)
    (herr : ∃ r ∈ prepareResults, r.err.isSome) :
    (cluSetPrimary st selfId proxyid true false true prepareResults commitResults).1 = st
    ∧ (cluSetPrimary st selfId proxyid true false true prepareResults commitResults).2
        = [.bcastPrepare, .writeErr]
    ∧ PrimEvent.writeErr
        ∈ (cluSetPrimary st selfId proxyid true false true prepareResults commitResults).2
    ∧ PrimEvent.setTransition true
        ∉ (cluSetPrimary st selfId proxyid true false true prepareResults commitResults).2
    ∧ PrimEvent.publishSmap proxyid
        ∉ (cluSetPrimary st selfId proxyid true false true prepareResults commitResults).2
    ∧ PrimEvent.becomeNonPrimary
        ∉ (cluSetPrimary st selfId proxyid true false true prepareResults commitResults).2
    ∧ PrimEvent.bcastCommit
        ∉ (cluSetPrimary st selfId proxyid true false true prepareResults commitResults).2 := by
  have hany : prepareResults.any (fun r => r.err.isSome) = true := by
    rw [List.any_eq_true]
    obtain ⟨r, hr, he⟩ := herr
    exact ⟨r, hr, he⟩
  have hres : cluSetPrimary st selfId proxyid true false true prepareResults commitResults
      = (st, [.bcastPrepare, .writeErr]) := by
    unfold cluSetPrimary
    rw [hpsi]
    simp [hself, hmaint, hany]
  rw [hres]
  refine ⟨rfl, rfl, by simp, by simp, by simp, by simp, by simp⟩

/-- A healthy proxy descriptor used in concrete witnesses. -/
def pxyNode (sid : String) : Snode :=
  { id := sid, daeType := "proxy", pubURL := "http://" ++ sid
    ctrlURL := "http://" ++ sid, dataURL := "http://" ++ sid
    nonElectable := false, maintenance := false, decommission := false }

/-- Cluster map used by the C4 witness. -/
def smapC4 : SmapX :=
  { version := 10, pmap := [("p1", pxyNode "p1"), ("p2", pxyNode "p2")]
    tmap := [], primary := "p1" }

/-- Initial local state for the C4 witness. -/
def stC4 : PrimaryState := { smap := smapC4, inPrimaryTransition := false }

/-- Prepare-broadcast results for the C4 witness: one node failed. -/
def prepResC4 : List CallRes := [{ siId := "p3", err := some "boom" }]

/-- Witness for C4 at a concrete input. -/
theorem cluSetPrimary_prepare_failure_witness :
    (cluSetPrimary stC4 "p1" "p2" true false true prepResC4 []).1 = stC4
    ∧ (cluSetPrimary stC4 "p1" "p2" true false true prepResC4 []).2
        = [.bcastPrepare, .writeErr] := by
  have h := cluSetPrimary_prepare_failure stC4 "p1" "p2" prepResC4 [] (pxyNode "p2")
    (by decide) (by decide) (by decide)
    ⟨{ siId := "p3", err := some "boom" }, by decide, by decide⟩
  exact ⟨h.1, h.2.1⟩

/-! ## Join / keepalive admission (`httpclupost`, `handleJoinKalive`,
`addOrUpdateNode`) -/

/-- `Snode.Equals`. Modelled from the spec: descriptor identity is the
id, the role and the three network endpoints (the flag bitset is not part
of identity). -/
def Snode.equals (a b : Snode) : Bool :=
  a.id = b.id && a.daeType = b.daeType && a.pubURL = b.pubURL
    && a.ctrlURL = b.ctrlURL && a.dataURL = b.dataURL

/-- The flag copy `nsi.Flags = osi.Flags` performed by `httpclupost` when
the id is already present. -/
def withFlagsOf (nsi osi : Snode) : Snode :=
  { nsi with
    nonElectable := osi.nonElectable
    maintenance := osi.maintenance
    decommission := osi.decommission }

/-- `smapX.putNode`: insert-or-replace the descriptor in the proper map.
Modelled from the spec for the version change: every published mutation
strictly increases the SMap version (property P2). -/
def SmapX.putNode (m : SmapX) (nsi : Snode) : SmapX :=
  if nsi.isProxy then { m with pmap := mset m.pmap nsi.id nsi, version := m.version + 1 }
  else { m with tmap := mset m.tmap nsi.id nsi, version := m.version + 1 }

/-- `Smap.IsDuplicate`. Modelled from the spec: a node under a different
id already advertising the same public endpoint. -/
def SmapX.isDuplicateEndpoint (m : SmapX) (nsi : Snode) : Bool :=
  (m.pmap ++ m.tmap).any fun p => !(p.2.id = nsi.id) && p.2.pubURL = nsi.pubURL

/-- `proxyrunner.addOrUpdateNode(nsi, osi, keepalive)`: `dupProbe` is the
outcome of `detectDaemonDuplicate` (error, or whether the old node is
still alive), `nodeStarted` is `p.NodeStarted()`. Returns whether the
join/keepalive must proceed to the SMap-update pipeline. -/
def addOrUpdateNode (nsi : Snode) (osi : Option Snode) (keepalive : Bool)
    (nodeStarted : Bool) (dupProbe : Except String Bool) : Bool :=
  if keepalive then
    match osi with
    | none => true
    | some osi =>
        if !(osi.equals nsi) then
          match dupProbe with
          | .error _ => false
          | .ok true => false
          | .ok false => true
        else false
  else
    match osi with
    | none => true
    | some osi =>
        if !nodeStarted then true
        else if osi.equals nsi then false
        else true

/-- Result of `handleJoinKalive`: the `upd` flag, the error, and the SMap
snapshot afterwards (it is written directly during cluster startup). -/
structure JKOut where
  upd : Bool
  err : Option String
  smap : SmapX
deriving DecidableEq, Repr

/-- `proxyrunner.handleJoinKalive` (executed under the Smap lock):
reject if not primary; for proxies always consult `addOrUpdateNode`, for
targets only on keepalive; then validate the joiner's Smap UUID
(`uuidOk`); during cluster startup put the node directly with no further
validation; otherwise check for an endpoint duplicate and report
`upd = (no error)`. -/
def handleJoinKalive (selfIsPrimary : Bool) (smap : SmapX) (nsi : Snode)
    (keepalive : Bool) (uuidOk clusterStarted nodeStarted : Bool)
    (dupProbe : Except String Bool) : JKOut :=
  if !selfIsPrimary then { upd := false, err := some "not primary", smap := smap }
  else
    let proceed :=
      if nsi.isProxy then
        addOrUpdateNode nsi (smap.getProxy nsi.id) keepalive nodeStarted dupProbe
      else if keepalive then
        addOrUpdateNode nsi (smap.getTarget nsi.id) keepalive nodeStarted dupProbe
      else true
    if !proceed then { upd := false, err := none, smap := smap }
    else if !uuidOk then { upd := false, err := some "cie", smap := smap }
    else if !clusterStarted then { upd := false, err := none, smap := smap.putNode nsi }
    else if smap.isDuplicateEndpoint nsi then
      { upd := false, err := some "duplicate", smap := smap }
    else { upd := true, err := none, smap := smap }

/-- Self-join handler response classes. -/
inductive JoinResp where
  | okMeta
  | okNoUpdate
  | errDup
  | errProbe
  | errOther
deriving DecidableEq, Repr

/-- Outcome of the self-join flow: HTTP response class, resulting SMap
snapshot, and whether a rebalance (RMD bump) was triggered. -/
structure JoinFlowOut where
  resp : JoinResp
  smap : SmapX
  rebTriggered : Bool
deriving DecidableEq, Repr

/-- The admitted tail of the self-join flow: `handleJoinKalive` and, on
`upd`, the modify pipeline `_updPre`/`_updPost` of
`updateAndDistribute`: `putNode` on the clone (bumping the version) and,
for a target, an RMD bump when the node already existed (`ctx.exists`)
or `mustRunRebalance` fires, gated on `canRunRebalance` (`canReb`). -/
def selfJoinAdmit (smap : SmapX) (nsi : Snode) (dupProbe : Except String Bool)
    (uuidOk clusterStarted nodeStarted canReb rebEnabled : Bool) : JoinFlowOut :=
  let jk := handleJoinKalive true smap nsi false uuidOk clusterStarted nodeStarted dupProbe
  match jk.err with
  | some _ => { resp := .errOther, smap := jk.smap, rebTriggered := false }
  | none =>
      if !jk.upd then { resp := .okNoUpdate, smap := jk.smap, rebTriggered := false }
      else
        let exists_ := (jk.smap.getNode nsi.id).isSome
        let smap2 := jk.smap.putNode nsi
        let reb := !nsi.isProxy && canReb
          && (exists_ || (mustRunRebalance rebEnabled { smap := jk.smap, mustReb := false }
                smap2).1)
        { resp := .okMeta, smap := smap2, rebTriggered := reb }

/-- The self-join path of `proxyrunner.httpclupost`: copy the existing
node's flags onto `nsi`; if the id exists with a different descriptor run
`detectDaemonDuplicate` (`dupProbe`; an error or a live duplicate rejects
with no SMap change, otherwise the renewal is logged and permitted); then
admit via `selfJoinAdmit`. -/
def httpclupostSelfJoin (smap : SmapX) (nsi0 : Snode) (dupProbe : Except String Bool)
    (uuidOk clusterStarted nodeStarted canReb rebEnabled : Bool) : JoinFlowOut :=
  let nsi := match smap.getNode nsi0.id with
    | some osi => withFlagsOf nsi0 osi
    | none => nsi0
  let dupReject : Option JoinResp :=
    match smap.getNode nsi.id with
    | some osi =>
        if !(osi.equals nsi) then
          match dupProbe with
          | .error _ => some .errProbe
          | .ok true => some .errDup
          | .ok false => none
        else none
    | none => none
  match dupReject with
  | some r => { resp := r, smap := smap, rebTriggered := false }
  | none => selfJoinAdmit smap nsi dupProbe uuidOk clusterStarted nodeStarted canReb rebEnabled

theorem withFlagsOf_id (nsi osi : Snode) : (withFlagsOf nsi osi).id = nsi.id := rfl

theorem equals_withFlagsOf (osi nsi : Snode) :
    osi.equals (withFlagsOf nsi osi) = osi.equals nsi := rfl

theorem selfJoinAdmit_resp_not_dup (smap : SmapX) (nsi : Snode)
    (dupProbe : Except String Bool) (uuidOk clusterStarted nodeStarted canReb rebEnabled : Bool) :
    (selfJoinAdmit smap nsi dupProbe uuidOk clusterStarted nodeStarted canReb
        rebEnabled).resp ≠ .errDup
    ∧ (selfJoinAdmit smap nsi dupProbe uuidOk clusterStarted nodeStarted canReb
        rebEnabled).resp ≠ .errProbe := by
  unfold selfJoinAdmit
  cases herr :
      (handleJoinKalive true smap nsi false uuidOk clusterStarted nodeStarted dupProbe).err with
  | some e => simp [herr]
  | none =>
      cases hupd :
          (handleJoinKalive true smap nsi false uuidOk clusterStarted nodeStarted dupProbe).upd
        <;> simp [herr, hupd]

/-- C7: a self-join carrying an id that already exists in the SMap with a
different descriptor triggers the out-of-band duplicate probe: if the old
node answers as alive, the join is rejected with the duplicate-node-ID
error and the SMap snapshot is unchanged (no descriptor replacement, no
version bump, no rebalance); if the old node does not answer as alive,
the renewal is permitted — the flow proceeds past the duplicate check and
never produces the duplicate-id or probe-failure error. -/
theorem selfJoin_duplicate_id (smap : SmapX) (nsi osi : Snode)
    (uuidOk clusterStarted nodeStarted canReb rebEnabled : Bool)
    (hosi : smap.getNode nsi.id = some osi)
    (hdiff : osi.equals nsi = false) :
    (httpclupostSelfJoin smap nsi (.ok true) uuidOk clusterStarted nodeStarted canReb rebEnabled
        = { resp := .errDup, smap := smap, rebTriggered := false })
    ∧ ((httpclupostSelfJoin smap nsi (.ok false) uuidOk clusterStarted nodeStarted canReb
          rebEnabled).resp ≠ .errDup
      ∧ (httpclupostSelfJoin smap nsi (.ok false) uuidOk clusterStarted nodeStarted canReb
          rebEnabled).resp ≠ .errProbe) := by
  have hid : (withFlagsOf nsi osi).id = nsi.id := rfl
  have heq : osi.equals (withFlagsOf nsi osi) = false := by
    rw [equals_withFlagsOf]
    exact hdiff
  constructor
  · unfold httpclupostSelfJoin
    rw [hosi]
    simp only [hid, hosi, heq, Bool.not_false, if_pos]
  · unfold httpclupostSelfJoin
    rw [hosi]
    simp only [hid, hosi, heq, Bool.not_false, if_pos]
    exact selfJoinAdmit_resp_not_dup smap (withFlagsOf nsi osi) (.ok false)
      uuidOk clusterStarted nodeStarted canReb rebEnabled

/-- Cluster map used by the C7 and C8 witnesses: one healthy proxy `p1`
(primary) and one active target `t1`. -/
def smapC7 : SmapX :=
  { version := 7, pmap := [("p1", pxyNode "p1")], tmap := [("t1", tgtNode "t1")]
    primary := "p1" }

/-- Witness for C7 at a concrete input: `t1` re-joins with the same id
but a different public endpoint while the old `t1` is still alive. -/
theorem selfJoin_duplicate_id_witness :
    httpclupostSelfJoin smapC7 { tgtNode "t1" with pubURL := "http://elsewhere" }
        (.ok true) true true true true true
      = { resp := .errDup, smap := smapC7, rebTriggered := false } :=
  (selfJoin_duplicate_id smapC7 { tgtNode "t1" with pubURL := "http://elsewhere" }
    (tgtNode "t1") true true true true true (by decide) (by decide)).1

/-- C8 counterexample: the claim promises that ANY self-join whose id is
already present with an identical descriptor leaves the SMap unmodified
and triggers no rebalance. For a TARGET (`t1` of `smapC7`,
re-self-joining unchanged, cluster and node started) the handler instead
re-enters the update pipeline: the published SMap differs (version bump)
and a rebalance is triggered via `ctx.exists`. -/
theorem selfJoin_identical_counterexample :
    ¬ (∀ (smap : SmapX) (nsi osi : Snode) (uuidOk cs ns canReb rebEnabled : Bool)
          (probe : Except String Bool),
        smap.getNode nsi.id = some osi → osi.equals nsi = true →
        ((httpclupostSelfJoin smap nsi probe uuidOk cs ns canReb rebEnabled).resp = .okNoUpdate
            ∨ (httpclupostSelfJoin smap nsi probe uuidOk cs ns canReb rebEnabled).resp = .okMeta)
          ∧ (httpclupostSelfJoin smap nsi probe uuidOk cs ns canReb rebEnabled).smap = smap
          ∧ (httpclupostSelfJoin smap nsi probe uuidOk cs ns canReb rebEnabled).rebTriggered
              = false) := by
  intro h
  have hinst := h smapC7 (tgtNode "t1") (tgtNode "t1") true true true true true (.ok false)
    (by decide) (by decide)
  exact absurd hinst.2.1 (by decide)

/-- C8 (amended): once the primary's node and the cluster have started, a
PROXY self-join whose id is already present with an identical descriptor
is treated as a keepalive renewal and not as an error: the handler
replies successfully with no SMap update and no rebalance
(`addOrUpdateNode` reports "already registered"). A TARGET self-join with
an identical descriptor, by contrast, bypasses `addOrUpdateNode` and
re-enters the update pipeline: the SMap version is bumped and — with
rebalance permitted — an RMD bump (rebalance) is triggered because the
target id already existed. -/
theorem selfJoin_identical_renewal :
    (∀ (smap : SmapX) (nsi osi : Snode) (canReb rebEnabled : Bool)
        (probe : Except String Bool),
      smap.getTarget nsi.id = none → smap.getProxy nsi.id = some osi →
      osi.equals nsi = true → nsi.isProxy = true →
      httpclupostSelfJoin smap nsi probe true true true canReb rebEnabled
        = { resp := .okNoUpdate, smap := smap, rebTriggered := false })
    ∧ (∀ (smap : SmapX) (nsi osi : Snode) (rebEnabled : Bool) (probe : Except String Bool),
      smap.getTarget nsi.id = some osi → nsi.isProxy = false →
      osi.equals nsi = true →
      smap.isDuplicateEndpoint (withFlagsOf nsi osi) = false →
      (httpclupostSelfJoin smap nsi probe true true true true rebEnabled).resp = .okMeta
      ∧ (httpclupostSelfJoin smap nsi probe true true true true rebEnabled).smap.version
          = smap.version + 1
      ∧ (httpclupostSelfJoin smap nsi probe true true true true rebEnabled).rebTriggered
          = true) := by
  constructor
  · intro smap nsi osi canReb rebEnabled probe ht hp heq hproxy
    have hnode : smap.getNode nsi.id = some osi := by
      unfold SmapX.getNode SmapX.getTarget SmapX.getProxy at *
      rw [ht, hp]
    have hid : (withFlagsOf nsi osi).id = nsi.id := rfl
    have hpx : (withFlagsOf nsi osi).isProxy = nsi.isProxy := rfl
    have heq' : osi.equals (withFlagsOf nsi osi) = true := by
      rw [equals_withFlagsOf, heq]
    unfold httpclupostSelfJoin
    rw [hnode]
    simp only [hid, hnode, heq', Bool.not_true, Bool.false_eq_true, if_false]
    unfold selfJoinAdmit handleJoinKalive addOrUpdateNode
    simp only [hid, hpx, hproxy, if_true, Bool.not_true, Bool.false_eq_true, if_false, hp,
      heq', Bool.not_false, ite_true, ite_false]
  · intro smap nsi osi rebEnabled probe ht htgt heq hdup
    have hnode : smap.getNode nsi.id = some osi := by
      unfold SmapX.getNode SmapX.getTarget at *
      rw [ht]
    have hid : (withFlagsOf nsi osi).id = nsi.id := rfl
    have hpx : (withFlagsOf nsi osi).isProxy = nsi.isProxy := rfl
    have heq' : osi.equals (withFlagsOf nsi osi) = true := by
      rw [equals_withFlagsOf, heq]
    unfold httpclupostSelfJoin
    rw [hnode]
    simp only [hid, hnode, heq', Bool.not_true, Bool.false_eq_true, if_false]
    unfold selfJoinAdmit handleJoinKalive
    simp only [hid, hpx, htgt, Bool.not_true, Bool.false_eq_true, if_false, hdup,
      Bool.not_false, ite_true, ite_false]
    unfold SmapX.putNode
    simp [hpx, htgt, hnode]

/-- Cluster map used by the C8 witness: proxies `p1` (primary) and `p2`,
one active target `t1`. -/
def smapC8 : SmapX :=
  { version := 9, pmap := [("p1", pxyNode "p1"), ("p2", pxyNode "p2")]
    tmap := [("t1", tgtNode "t1")], primary := "p1" }

/-- Witness for C8 (amended) at a concrete input: proxy `p2` self-joins
again with an identical descriptor and is treated as a renewal. -/
theorem selfJoin_identical_renewal_witness :
    httpclupostSelfJoin smapC8 (pxyNode "p2") (.ok false) true true true true true
      = { resp := .okNoUpdate, smap := smapC8, rebTriggered := false } :=
  selfJoin_identical_renewal.1 smapC8 (pxyNode "p2") (pxyNode "p2") true true (.ok false)
    (by decide) (by decide) (by decide) (by decide)

/-! ## Notification listener aggregation (claim C9)

Modelled from the spec: the `nl`/`notifs` implementation (NotifListener,
`handleFinished`, the `fin` archive) is not part of the extract — only
its tests are. The spec says: on a Finished notification merge stats, add
the notifier to `finished`, set `aborted` if the payload indicates abort;
when `finished = notifiers` or `aborted`, fire the completion callback
and move the NL to the `fin` (archived) set; notifications for an
archived/unknown uuid are dropped with 200; `aborted` is sticky. -/

/-- A notification POSTed by a target: source node, whether the kind is
Finished (else Progress), and whether the payload indicates abort. -/
structure NotifMsg where
  src : String
  finKind : Bool
  abortPayload : Bool
deriving DecidableEq, Repr

/-- Modelled from the spec: a notification listener with its notifier
set, finished set, sticky abort flag, archived (`fin`) flag and a count
of completion-callback invocations. -/
structure NL where
  uuid : String
  notifiers : List String
  finished : List String
  aborted : Bool
  archived : Bool
  cbFired : Nat
deriving DecidableEq, Repr

/-- A freshly registered NL. -/
def initNL (uuid : String) (notifiers : List String) : NL :=
  { uuid := uuid, notifiers := notifiers, finished := [], aborted := false
    archived := false, cbFired := 0 }

/-- Modelled from the spec: handling of one notification. Archived NLs
drop the message (late arrival, 200); Progress merges stats only; a
Finished message from a notifier joins the finished set and may set
`aborted`; when `finished = notifiers` or `aborted`, the callback fires
and the NL is archived. -/
def stepNotif (nl : NL) (m : NotifMsg) : NL :=
  if nl.archived then nl
  else if !m.finKind then nl
  else if m.src ∈ nl.notifiers then
    let fin' := if m.src ∈ nl.finished then nl.finished else m.src :: nl.finished
    let ab' := nl.aborted || m.abortPayload
    if (∀ n ∈ nl.notifiers, n ∈ fin') ∨ ab' = true then
      { nl with finished := fin', aborted := ab', archived := true, cbFired := nl.cbFired + 1 }
    else { nl with finished := fin', aborted := ab' }
  else nl

/-- Process a sequence of notifications. -/
def processMsgs (nl : NL) : List NotifMsg → NL
  | [] => nl
  | m :: rest => processMsgs (stepNotif nl m) rest

/-- Every notifier has delivered a Finished notification that is still
recorded. -/
def allFin (nl : NL) : Prop := ∀ n ∈ nl.notifiers, n ∈ nl.finished

/-- The C9 state invariant: the callback fired at most once, exactly on
archival, only when the completion condition held, and a live
(non-archived) NL is neither aborted nor fully finished. -/
def nlInv (nl : NL) : Prop :=
  nl.cbFired ≤ 1
  ∧ (nl.archived = true ↔ nl.cbFired = 1)
  ∧ (nl.archived = true → (allFin nl ∨ nl.aborted = true))
  ∧ (nl.archived = false → (nl.aborted = false ∧ ¬ allFin nl))

theorem stepNotif_archived (nl : NL) (m : NotifMsg) (h : nl.archived = true) :
    stepNotif nl m = nl := by
  simp [stepNotif, h]

theorem processMsgs_archived : ∀ (msgs : List NotifMsg) (nl : NL), nl.archived = true →
    processMsgs nl msgs = nl
  | [], _, _ => rfl
  | m :: rest, nl, h => by
      rw [processMsgs, stepNotif_archived nl m h]
      exact processMsgs_archived rest nl h

theorem stepNotif_notifiers (nl : NL) (m : NotifMsg) :
    (stepNotif nl m).notifiers = nl.notifiers := by
  simp only [stepNotif]
  split_ifs <;> rfl

theorem stepNotif_inv (nl : NL) (m : NotifMsg) (h : nlInv nl) : nlInv (stepNotif nl m) := by
  obtain ⟨h1, h2, h3, h4⟩ := h
  by_cases ha : nl.archived = true
  · rw [stepNotif_archived nl m ha]
    exact ⟨h1, h2, h3, h4⟩
  · have ha' : nl.archived = false := by
      cases hx : nl.archived
      · rfl
      · exact absurd hx ha
    obtain ⟨hab, hnf⟩ := h4 ha'
    have hcb : nl.cbFired = 0 := by
      by_cases hc : nl.cbFired = 1
      · exact absurd (h2.2 hc) ha
      · omega
    unfold stepNotif
    rw [if_neg (by simp [ha'])]
    by_cases hkind : m.finKind = true
    · rw [if_neg (by simp [hkind])]
      by_cases hsrc : m.src ∈ nl.notifiers
      · rw [if_pos hsrc]
        simp only
        by_cases hdone : (∀ n ∈ nl.notifiers,
              n ∈ if m.src ∈ nl.finished then nl.finished else m.src :: nl.finished)
            ∨ (nl.aborted || m.abortPayload) = true
        · rw [if_pos hdone]
          refine ⟨by show nl.cbFired + 1 ≤ 1; omega, by simp [hcb], ?_, by simp⟩
          intro _
          rcases hdone with hall | hab'
          · left
            exact hall
          · right
            exact hab'
        · rw [if_neg hdone]
          push_neg at hdone
          refine ⟨h1, by simpa [ha'] using h2, by simp [ha'], ?_⟩
          intro _
          obtain ⟨hnall, hnab⟩ := hdone
          refine ⟨by simpa using hnab, ?_⟩
          intro hall
          obtain ⟨n, hn, hnin⟩ := hnall
          exact hnin (hall n hn)
      · rw [if_neg hsrc]
        exact ⟨h1, h2, h3, h4⟩
    · rw [if_pos (by simp [hkind])]
      exact ⟨h1, h2, h3, h4⟩

theorem processMsgs_inv : ∀ (msgs : List NotifMsg) (nl : NL),
    nlInv nl → nlInv (processMsgs nl msgs) ∧ (processMsgs nl msgs).notifiers = nl.notifiers
  | [], _, h => ⟨h, rfl⟩
  | m :: rest, nl, h => by
      have hstep := stepNotif_inv nl m h
      have hnot := stepNotif_notifiers nl m
      have hrec := processMsgs_inv rest (stepNotif nl m) hstep
      rw [processMsgs]
      exact ⟨hrec.1, by rw [hrec.2, hnot]⟩

/-- C9 (modelled from the spec): for a notification listener with a
non-empty notifier set, over any sequence of notifications the completion
callback fires at most once; it fires exactly when the NL transitions to
the archived (`fin`) set; it never fires before every notifier finished
or an abort was indicated; once every notifier has finished or the
aborted flag is set the callback has fired (exactly once); late
notifications after archival never fire it again; and `aborted`, once
set, is sticky. -/
theorem notif_listener_completion (uuid : String) (notifiers : List String)
    (msgs : List NotifMsg) (hN : notifiers ≠ []) :
    (processMsgs (initNL uuid notifiers) msgs).cbFired ≤ 1
    ∧ ((processMsgs (initNL uuid notifiers) msgs).cbFired = 1
        ↔ (processMsgs (initNL uuid notifiers) msgs).archived = true)
    ∧ ((processMsgs (initNL uuid notifiers) msgs).cbFired = 1
        → (allFin (processMsgs (initNL uuid notifiers) msgs)
            ∨ (processMsgs (initNL uuid notifiers) msgs).aborted = true))
    ∧ ((allFin (processMsgs (initNL uuid notifiers) msgs)
          ∨ (processMsgs (initNL uuid notifiers) msgs).aborted = true)
        → (processMsgs (initNL uuid notifiers) msgs).cbFired = 1)
    ∧ (∀ more, (processMsgs (processMsgs (initNL uuid notifiers) msgs) more).cbFired ≤ 1)
    ∧ ((processMsgs (initNL uuid notifiers) msgs).aborted = true
        → ∀ more,
            (processMsgs (processMsgs (initNL uuid notifiers) msgs) more).aborted = true) := by
  have hinit : nlInv (initNL uuid notifiers) := by
    refine ⟨by simp [initNL], by simp [initNL], by simp [initNL], ?_⟩
    intro _
    refine ⟨rfl, ?_⟩
    intro hall
    obtain ⟨n, hn⟩ := List.exists_mem_of_ne_nil notifiers hN
    have := hall n (by simpa [initNL] using hn)
    simp [initNL] at this
  obtain ⟨⟨h1, h2, h3, h4⟩, _⟩ := processMsgs_inv msgs (initNL uuid notifiers) hinit
  have harch : (processMsgs (initNL uuid notifiers) msgs).aborted = true
      ∨ allFin (processMsgs (initNL uuid notifiers) msgs) →
      (processMsgs (initNL uuid notifiers) msgs).archived = true := by
    intro hcond
    cases hx : (processMsgs (initNL uuid notifiers) msgs).archived
    · obtain ⟨hab, hnf⟩ := h4 hx
      rcases hcond with hab' | hall
      · rw [hab] at hab'
        cases hab'
      · exact absurd hall hnf
    · rfl
  refine ⟨h1, h2.symm, ?_, ?_, ?_, ?_⟩
  · intro hc
    exact h3 (h2.2 hc)
  · intro hcond
    refine h2.1 (harch ?_)
    rcases hcond with hall | hab
    · right
      exact hall
    · left
      exact hab
  · intro more
    obtain ⟨⟨g1, _, _, _⟩, _⟩ :=
      processMsgs_inv more (processMsgs (initNL uuid notifiers) msgs) ⟨h1, h2, h3, h4⟩
    exact g1
  · intro hab more
    have hx := harch (Or.inl hab)
    rw [processMsgs_archived more _ hx]
    exact hab

/-- Witness for C9 at a concrete input: both notifiers finish, the
callback fires exactly once. -/
theorem notif_listener_completion_witness :
    (processMsgs (initNL "1" ["t1", "t2"])
        [{ src := "t1", finKind := true, abortPayload := false },
          { src := "t2", finKind := true, abortPayload := false }]).cbFired = 1 :=
  (notif_listener_completion "1" ["t1", "t2"]
      [{ src := "t1", finKind := true, abortPayload := false },
        { src := "t2", finKind := true, abortPayload := false }]
      (by decide)).2.2.2.1
    (Or.inl (by unfold allFin; decide))
